import Mathlib

/-!
Verification of the replicated key-value store node (`solution/node.py`).

The Python source is embedded shallowly: every handler of `StorageNode`
becomes a pure Lean function from the node state and the message fields to
an `Effect` (new state, peer sends, local sends).  Python dicts are
association lists that preserve insertion order, exactly as Python 3.7+
dicts do; `insertAL` overwrites an existing key in place and appends a new
key at the end, `eraseAL` removes a key, `lookupAL` finds the first match.
Timestamps (Python floats ordered by `<`, `==`) are embedded as `Int` with
the sentinel `-1`; values are `Option String` with `none` as the `None`
tombstone, and Python string comparison is Lean's lexicographic `String`
order on code points.
-/

set_option autoImplicit false

/-! ## MD5 (as used by `hashlib.md5` in `get_key_replicas`) -/

/-- Truncation to a 32-bit word, `x % 2^32`. -/
def m32 (x : Nat) : Nat := x % 4294967296

/-- Left rotation of a 32-bit word by `s` bits. -/
def rotl32 (x s : Nat) : Nat := m32 (x <<< s) ||| (x >>> (32 - s))

/-- Bitwise complement of a 32-bit word. -/
def not32 (x : Nat) : Nat := 4294967295 ^^^ x

/-- The MD5 per-round left-rotation amounts. -/
def md5_shifts : List Nat :=
  [7, 12, 17, 22, 7, 12, 17, 22, 7, 12, 17, 22, 7, 12, 17, 22,
   5, 9, 14, 20, 5, 9, 14, 20, 5, 9, 14, 20, 5, 9, 14, 20,
   4, 11, 16, 23, 4, 11, 16, 23, 4, 11, 16, 23, 4, 11, 16, 23,
   6, 10, 15, 21, 6, 10, 15, 21, 6, 10, 15, 21, 6, 10, 15, 21]

/-- The MD5 sine-derived round constants `K[i] = floor(|sin(i+1)| * 2^32)`. -/
def md5_sines : List Nat :=
  [3614090360, 3905402710, 606105819, 3250441966,
   4118548399, 1200080426, 2821735955, 4249261313,
   1770035416, 2336552879, 4294925233, 2304563134,
   1804603682, 4254626195, 2792965006, 1236535329,
   4129170786, 3225465664, 643717713, 3921069994,
   3593408605, 38016083, 3634488961, 3889429448,
   568446438, 3275163606, 4107603335, 1163531501,
   2850285829, 4243563512, 1735328473, 2368359562,
   4294588738, 2272392833, 1839030562, 4259657740,
   2763975236, 1272893353, 4139469664, 3200236656,
   681279174, 3936430074, 3572445317, 76029189,
   3654602809, 3873151461, 530742520, 3299628645,
   4096336452, 1126891415, 2878612391, 4237533241,
   1700485571, 2399980690, 4293915773, 2240044497,
   1873313359, 4264355552, 2734768916, 1309151649,
   4149444226, 3174756917, 718787259, 3951481745]

/-- The little-endian bytes of `n`, `count` bytes long. -/
def leBytes : Nat → Nat → List Nat
  | _, 0 => []
  | n, count + 1 => (n % 256) :: leBytes (n / 256) count

/-- Read a byte list as an unsigned little-endian integer
(Python's `int.from_bytes(bytes, 'little', signed=False)`). -/
def fromBytesLE : List Nat → Nat
  | [] => 0
  | b :: rest => b + 256 * fromBytesLE rest

/-- The 16 little-endian 32-bit words of a 64-byte MD5 chunk. -/
def md5Words (chunk : List Nat) : List Nat :=
  (List.range 16).map (fun j => fromBytesLE ((chunk.drop (4 * j)).take 4))

/-- The MD5 round function and message-word index for round `i`. -/
def md5_fg (i b c d : Nat) : Nat × Nat :=
  if i < 16 then ((b &&& c) ||| (not32 b &&& d), i)
  else if i < 32 then ((d &&& b) ||| (not32 d &&& c), (5 * i + 1) % 16)
  else if i < 48 then (b ^^^ c ^^^ d, (3 * i + 5) % 16)
  else (c ^^^ (b ||| not32 d), (7 * i) % 16)

/-- One MD5 round: updates the register quadruple `(a, b, c, d)`. -/
def md5Round (words : List Nat) (st : Nat × Nat × Nat × Nat) (i : Nat) :
    Nat × Nat × Nat × Nat :=
  let (a, b, c, d) := st
  let (f, g) := md5_fg i b c d
  let f2 := m32 (f + a + (md5_sines.getD i 0) + words.getD g 0)
  (d, m32 (b + rotl32 f2 (md5_shifts.getD i 0)), b, c)

/-- Process one 64-byte chunk against the running MD5 register state. -/
def md5Chunk (st : Nat × Nat × Nat × Nat) (chunk : List Nat) :
    Nat × Nat × Nat × Nat :=
  let (a0, b0, c0, d0) := st
  let (a, b, c, d) := (List.range 64).foldl (md5Round (md5Words chunk)) st
  (m32 (a0 + a), m32 (b0 + b), m32 (c0 + c), m32 (d0 + d))

/-- Chunk-splitting worker with explicit fuel. -/
def chunks64Go : Nat → List Nat → List (List Nat)
  | 0, _ => []
  | _, [] => []
  | fuel + 1, b :: l => (b :: l).take 64 :: chunks64Go fuel ((b :: l).drop 64)

/-- Split a byte list into 64-byte chunks (the padded length is a multiple
of 64); the fuel bounds the recursion structurally. -/
def chunks64 (l : List Nat) : List (List Nat) := chunks64Go l.length l

/-- MD5 padding: append `0x80`, zero bytes up to 56 mod 64, then the
64-bit little-endian bit length of the original message. -/
def md5Pad (msg : List Nat) : List Nat :=
  let bitLen := 8 * msg.length
  let zeros := (119 - msg.length % 64) % 64
  msg ++ [128] ++ List.replicate zeros 0 ++ leBytes (bitLen % 18446744073709551616) 8

/-- The 16-byte MD5 digest of a byte list. -/
def md5Digest (msg : List Nat) : List Nat :=
  let (a, b, c, d) :=
    (chunks64 (md5Pad msg)).foldl md5Chunk
      (1732584193, 4023233417, 2562383102, 271733878)
  leBytes a 4 ++ leBytes b 4 ++ leBytes c 4 ++ leBytes d 4

/-- UTF-8 encoding of a single character (code point to bytes). -/
def utf8Char (c : Char) : List Nat :=
  let n := c.toNat
  if n < 128 then [n]
  else if n < 2048 then [192 + n / 64, 128 + n % 64]
  else if n < 65536 then [224 + n / 4096, 128 + n / 64 % 64, 128 + n % 64]
  else [240 + n / 262144, 128 + n / 4096 % 64, 128 + n / 64 % 64, 128 + n % 64]

/-- UTF-8 encoding of a string (Python's `key.encode('utf8')`). -/
def utf8Bytes (s : String) : List Nat := s.data.flatMap utf8Char

/-- `int.from_bytes(hashlib.md5(key.encode('utf8')).digest(), 'little')`. -/
def md5KeyHash (key : String) : Nat := fromBytesLE (md5Digest (utf8Bytes key))

/-! ## Placement (`get_key_replicas`, `get_next_replica`) -/

/-- `get_next_replica(i, node_count)` from the source. -/
def get_next_replica (i node_count : Nat) : Nat := (i + 1) % node_count

/-- `get_key_replicas(key, node_count)` from the source: three decimal
strings of indices derived from the MD5 hash of the key.  Note that it
receives only the node count, never the node identifiers. -/
def get_key_replicas (key : String) (node_count : Nat) : List String :=
  let key_hash := md5KeyHash key
  let cur0 := key_hash % node_count
  let cur1 := get_next_replica cur0 node_count
  let cur2 := get_next_replica cur1 node_count
  [toString cur0, toString cur1, toString cur2]

/-! ## Lexicographic string comparison (Python `<` on `str`) -/

/-- Lexicographic strict order on code-point lists, Python's `<` on
strings: compare elementwise, a proper prefix is smaller. -/
def listLtB : List Char → List Char → Bool
  | _, [] => false
  | [], _ :: _ => true
  | a :: as, b :: bs =>
      if a.toNat < b.toNat then true
      else if b.toNat < a.toNat then false
      else listLtB as bs

/-- Python's `a < b` on strings. -/
def strLtB (a b : String) : Bool := listLtB a.data b.data

/-- Insert into a lexicographically sorted list of strings, keeping it
sorted. -/
def insertSorted (a : String) : List String → List String
  | [] => [a]
  | b :: l => if strLtB b a then b :: insertSorted a l else a :: b :: l

/-- Stable insertion sort by the lexicographic string order (Python's
`sorted`). -/
def sortStrings (l : List String) : List String := l.foldr insertSorted []

/-- The placement algorithm as the specification words it (§4.1): sort the
node list lexicographically and emit the entries at indices `H mod N`,
`(H+1) mod N`, `(H+2) mod N`.  Written from the spec for comparison with
the source's `get_key_replicas`. -/
def replicas_of_spec (key : String) (nodes : List String) : List String :=
  let sorted := sortStrings nodes
  let n := nodes.length
  let h := md5KeyHash key
  [sorted.getD (h % n) "", sorted.getD ((h + 1) % n) "", sorted.getD ((h + 2) % n) ""]

/-! ## Cells and the replica-side merge -/

/-- A stored cell: `(value-or-tombstone, timestamp)`.  `none` is Python's
`None` tombstone; an absent key reads as `(none, -1)`. -/
abbrev Cell := Option String × Int

/-- The `should_update` decision shared verbatim by
`_handle_replica_put_req` and `_handle_replica_read_repair`: take the
incoming `(value, timestamp)` over the `current` cell when the incoming
timestamp is larger, or at an equal timestamp when both values are concrete
and the incoming one is lexicographically larger, or when only the incoming
one is concrete. -/
def should_update (current : Cell) (value : Option String) (timestamp : Int) : Bool :=
  if current.2 < timestamp then true
  else if timestamp = current.2 then
    match value, current.1 with
    | some v, some cv => strLtB cv v
    | some _, none => true
    | none, _ => false
  else false

/-- The merge a replica applies to its stored cell: keep `current` unless
`should_update` prefers the incoming cell. -/
def mergeCell (current incoming : Cell) : Cell :=
  if should_update current incoming.1 incoming.2 then incoming else current

/-- One iteration of the reconciliation loop every coordinator finalizer
runs: fold a response `(replica, (value, timestamp))` into the running
`(best_value, best_timestamp)`.  Note the second branch requires *both*
values to be concrete, exactly as the Python `elif` does. -/
def bestStep (best : Cell) (r : String × Cell) : Cell :=
  if best.2 < r.2.2 then r.2
  else if r.2.2 = best.2 then
    match r.2.1, best.1 with
    | some v, some bv => if strLtB bv v then (some v, r.2.2) else best
    | _, _ => best
  else best

/-- The reconciliation loop that every coordinator finalizer
(`_finalize_get`, `_finalize_put`, `_finalize_delete`) runs over the
collected responses, starting from `(None, -1)`. -/
def computeBest (responses : List (String × Cell)) : Cell :=
  responses.foldl bestStep (none, -1)

/-- The strict reconciliation order of spec §4.2 on cells: larger timestamp
wins; at equal timestamps a concrete value beats a tombstone and concrete
values compare lexicographically.  Written from the spec's words. -/
def cellLtSpec (c d : Cell) : Bool :=
  if c.2 < d.2 then true
  else if c.2 = d.2 then
    match c.1, d.1 with
    | none, some _ => true
    | some v, some w => strLtB v w
    | _, none => false
  else false

/-! ## Messages and effects -/

/-- The coordinator operation recorded in a pending request. -/
inductive Op where
  | GET
  | PUT
  | DELETE
deriving DecidableEq, Repr

/-- Node-to-node messages (the peer channel). -/
inductive PeerMsg where
  | replicaGetReq (key : String) (request_id : Nat) (coordinator : String)
  | replicaGetResp (key : String) (value : Option String) (timestamp : Int)
      (request_id : Nat) (replica : String)
  | replicaPutReq (key : String) (value : String) (request_id : Nat)
      (coordinator : String) (timestamp : Int)
  | replicaPutResp (key : String) (value : Option String) (timestamp : Int)
      (request_id : Nat) (replica : String)
  | replicaDeleteReq (key : String) (request_id : Nat) (coordinator : String)
      (timestamp : Int)
  | replicaDeleteResp (key : String) (value : Option String) (timestamp : Int)
      (request_id : Nat) (replica : String)
  | replicaReadRepair (key : String) (value : Option String) (timestamp : Int)
deriving DecidableEq, Repr

/-- Node-to-client messages (the local outbox). -/
inductive LocalMsg where
  | getResp (key : String) (value : Option String)
  | putResp (key : String) (value : Option String)
  | deleteResp (key : String) (value : Option String)
deriving DecidableEq, Repr

/-! ## Association lists standing in for Python dicts -/

/-- First value bound to `k`, Python's `d[k]` / `d.get(k)`. -/
def lookupAL {α β : Type} [DecidableEq α] : List (α × β) → α → Option β
  | [], _ => none
  | (k', v') :: rest, k => if k = k' then some v' else lookupAL rest k

/-- Python's `d[k] = v`: overwrite in place if the key is present, append
at the end otherwise (dicts preserve insertion order). -/
def insertAL {α β : Type} [DecidableEq α] : List (α × β) → α → β → List (α × β)
  | [], k, v => [(k, v)]
  | (k', v') :: rest, k, v =>
      if k = k' then (k, v) :: rest else (k', v') :: insertAL rest k v

/-- Python's `d.pop(k)` (the removal part). -/
def eraseAL {α β : Type} [DecidableEq α] : List (α × β) → α → List (α × β)
  | [], _ => []
  | p :: rest, k => if p.1 = k then eraseAL rest k else p :: eraseAL rest k

/-- The keys of an association list. -/
def keysAL {α β : Type} (l : List (α × β)) : List α := l.map Prod.fst

/-! ## Node state -/

/-- One in-flight client operation (`self._pending_requests[request_id]`).
`value` is set only for PUT and `timestamp` only for PUT/DELETE, matching
the fields the Python dict carries. -/
structure PendingRequest where
  operation : Op
  key : String
  value : Option String
  replicas : List String
  quorum : Int
  responses : List (String × Cell)
  timestamp_sent : Int
  timestamp : Option Int
deriving DecidableEq, Repr

/-- The state of a `StorageNode`. -/
structure StorageNode where
  node_id : String
  nodes : List String
  node_count : Nat
  data : List (String × Cell)
  pending_requests : List (Nat × PendingRequest)
  request_counter : Nat
deriving DecidableEq, Repr

/-- `StorageNode.__init__(node_id, nodes)`. -/
def StorageNode.init (node_id : String) (nodes : List String) : StorageNode :=
  { node_id := node_id
    nodes := sortStrings nodes
    node_count := nodes.length
    data := []
    pending_requests := []
    request_counter := 0 }

/-- The result of running one handler: the successor state, the messages
sent to peers (with their destinations, in send order) and the messages
sent to the local client. -/
structure Effect where
  state : StorageNode
  sends : List (PeerMsg × String)
  locals : List LocalMsg
deriving DecidableEq, Repr

/-- An effect that leaves the state alone and sends nothing (the silent
drop). -/
def noop (s : StorageNode) : Effect := { state := s, sends := [], locals := [] }

/-! ## Coordinator: local client messages -/

/-- `_handle_local_get`. -/
def StorageNode.handle_local_get (self : StorageNode) (key : String)
    (quorum : Int) (now : Int) : Effect :=
  let replicas := get_key_replicas key self.node_count
  let request_id := self.request_counter
  let pending : PendingRequest :=
    { operation := Op.GET, key := key, value := none, replicas := replicas
      quorum := quorum, responses := [], timestamp_sent := now, timestamp := none }
  { state :=
      { self with
        request_counter := request_id + 1
        pending_requests := insertAL self.pending_requests request_id pending }
    sends := replicas.map fun replica =>
      (PeerMsg.replicaGetReq key request_id self.node_id, replica)
    locals := [] }

/-- `_handle_local_put`. -/
def StorageNode.handle_local_put (self : StorageNode) (key : String)
    (value : String) (quorum : Int) (now : Int) : Effect :=
  let replicas := get_key_replicas key self.node_count
  let request_id := self.request_counter
  let pending : PendingRequest :=
    { operation := Op.PUT, key := key, value := some value, replicas := replicas
      quorum := quorum, responses := [], timestamp_sent := now, timestamp := some now }
  { state :=
      { self with
        request_counter := request_id + 1
        pending_requests := insertAL self.pending_requests request_id pending }
    sends := replicas.map fun replica =>
      (PeerMsg.replicaPutReq key value request_id self.node_id now, replica)
    locals := [] }

/-- `_handle_local_delete`. -/
def StorageNode.handle_local_delete (self : StorageNode) (key : String)
    (quorum : Int) (now : Int) : Effect :=
  let replicas := get_key_replicas key self.node_count
  let request_id := self.request_counter
  let pending : PendingRequest :=
    { operation := Op.DELETE, key := key, value := none, replicas := replicas
      quorum := quorum, responses := [], timestamp_sent := now, timestamp := some now }
  { state :=
      { self with
        request_counter := request_id + 1
        pending_requests := insertAL self.pending_requests request_id pending }
    sends := replicas.map fun replica =>
      (PeerMsg.replicaDeleteReq key request_id self.node_id now, replica)
    locals := [] }

/-! ## Replica-side handlers -/

/-- `_handle_replica_get_req`: pure read; absent keys read as `(None, -1)`. -/
def StorageNode.handle_replica_get_req (self : StorageNode) (key : String)
    (request_id : Nat) (coordinator : String) : Effect :=
  let cell := (lookupAL self.data key).getD (none, -1)
  { state := self
    sends := [(PeerMsg.replicaGetResp key cell.1 cell.2 request_id self.node_id,
               coordinator)]
    locals := [] }

/-- `_handle_replica_put_req`: merge the incoming `(value, timestamp)` into
the store and answer with the winning cell. -/
def StorageNode.handle_replica_put_req (self : StorageNode) (key value : String)
    (request_id : Nat) (coordinator : String) (timestamp : Int) : Effect :=
  let current := (lookupAL self.data key).getD (none, -1)
  if should_update current (some value) timestamp then
    { state := { self with data := insertAL self.data key (some value, timestamp) }
      sends := [(PeerMsg.replicaPutResp key (some value) timestamp request_id
                  self.node_id, coordinator)]
      locals := [] }
  else
    { state := self
      sends := [(PeerMsg.replicaPutResp key current.1 current.2 request_id
                  self.node_id, coordinator)]
      locals := [] }

/-- `_handle_replica_delete_req`: unconditionally overwrite with the
tombstone at the coordinator's timestamp and answer with the previous cell. -/
def StorageNode.handle_replica_delete_req (self : StorageNode) (key : String)
    (request_id : Nat) (coordinator : String) (timestamp : Int) : Effect :=
  let current := (lookupAL self.data key).getD (none, -1)
  { state := { self with data := insertAL self.data key (none, timestamp) }
    sends := [(PeerMsg.replicaDeleteResp key current.1 current.2 request_id
                self.node_id, coordinator)]
    locals := [] }

/-- `_handle_replica_read_repair`: merge, no reply. -/
def StorageNode.handle_replica_read_repair (self : StorageNode) (key : String)
    (value : Option String) (timestamp : Int) : Effect :=
  let current := (lookupAL self.data key).getD (none, -1)
  if should_update current value timestamp then
    noop { self with data := insertAL self.data key (value, timestamp) }
  else
    noop self

/-! ## Coordinator: replica responses and finalizers -/

/-- `_finalize_get`: pop the pending request, compute the winner over the
responses, read-repair every response slot that differs from the winner on
timestamp or value, answer the client.  The caller passes the pending
request it found, mirroring `dict.pop`. -/
def StorageNode.finalize_get (self : StorageNode) (request_id : Nat)
    (pending : PendingRequest) : Effect :=
  let self2 :=
    { self with pending_requests := eraseAL self.pending_requests request_id }
  let best := computeBest pending.responses
  { state := self2
    sends := pending.responses.filterMap fun r =>
      if r.2.2 < best.2 ∨ (r.2.2 = best.2 ∧ r.2.1 ≠ best.1) then
        some (PeerMsg.replicaReadRepair pending.key best.1 best.2, r.1)
      else none
    locals := [LocalMsg.getResp pending.key best.1] }

/-- `_finalize_put`. -/
def StorageNode.finalize_put (self : StorageNode) (request_id : Nat)
    (pending : PendingRequest) : Effect :=
  let self2 :=
    { self with pending_requests := eraseAL self.pending_requests request_id }
  let best := computeBest pending.responses
  { state := self2, sends := [], locals := [LocalMsg.putResp pending.key best.1] }

/-- `_finalize_delete`. -/
def StorageNode.finalize_delete (self : StorageNode) (request_id : Nat)
    (pending : PendingRequest) : Effect :=
  let self2 :=
    { self with pending_requests := eraseAL self.pending_requests request_id }
  let best := computeBest pending.responses
  { state := self2, sends := [], locals := [LocalMsg.deleteResp pending.key best.1] }

/-- `_handle_replica_get_resp`: unknown `request_id` drops; otherwise record
the slot and finalize when the distinct-replica count reaches the quorum.
Note: the Python source checks no operation tag here. -/
def StorageNode.handle_replica_get_resp (self : StorageNode) (_key : String)
    (value : Option String) (timestamp : Int) (request_id : Nat)
    (replica : String) : Effect :=
  match lookupAL self.pending_requests request_id with
  | none => noop self
  | some pending =>
      let pending2 :=
        { pending with responses := insertAL pending.responses replica (value, timestamp) }
      let self2 :=
        { self with pending_requests := insertAL self.pending_requests request_id pending2 }
      if pending2.quorum ≤ (pending2.responses.length : Int) then
        self2.finalize_get request_id pending2
      else
        noop self2

/-- `_handle_replica_put_resp`: like the GET response handler but also
drops when the pending operation is not PUT. -/
def StorageNode.handle_replica_put_resp (self : StorageNode) (_key : String)
    (value : Option String) (timestamp : Int) (request_id : Nat)
    (replica : String) : Effect :=
  match lookupAL self.pending_requests request_id with
  | none => noop self
  | some pending =>
      if pending.operation ≠ Op.PUT then noop self
      else
        let pending2 :=
          { pending with responses := insertAL pending.responses replica (value, timestamp) }
        let self2 :=
          { self with pending_requests := insertAL self.pending_requests request_id pending2 }
        if pending2.quorum ≤ (pending2.responses.length : Int) then
          self2.finalize_put request_id pending2
        else
          noop self2

/-- `_handle_replica_delete_resp`: drops when the pending operation is not
DELETE. -/
def StorageNode.handle_replica_delete_resp (self : StorageNode) (_key : String)
    (value : Option String) (timestamp : Int) (request_id : Nat)
    (replica : String) : Effect :=
  match lookupAL self.pending_requests request_id with
  | none => noop self
  | some pending =>
      if pending.operation ≠ Op.DELETE then noop self
      else
        let pending2 :=
          { pending with responses := insertAL pending.responses replica (value, timestamp) }
        let self2 :=
          { self with pending_requests := insertAL self.pending_requests request_id pending2 }
        if pending2.quorum ≤ (pending2.responses.length : Int) then
          self2.finalize_delete request_id pending2
        else
          noop self2

/-! ## Delivering a stream of replica responses -/

/-- A replica response message, for feeding sequences of responses to the
coordinator. -/
inductive RespMsg where
  | get (key : String) (value : Option String) (timestamp : Int)
      (request_id : Nat) (replica : String)
  | put (key : String) (value : Option String) (timestamp : Int)
      (request_id : Nat) (replica : String)
  | del (key : String) (value : Option String) (timestamp : Int)
      (request_id : Nat) (replica : String)
deriving DecidableEq, Repr

/-- The `request_id` a response message carries. -/
def RespMsg.rid : RespMsg → Nat
  | .get _ _ _ r _ => r
  | .put _ _ _ r _ => r
  | .del _ _ _ r _ => r

/-- The `replica` field a response message carries. -/
def RespMsg.sender : RespMsg → String
  | .get _ _ _ _ n => n
  | .put _ _ _ _ n => n
  | .del _ _ _ _ n => n

/-- Dispatch one replica response into the matching handler
(`on_message`). -/
def StorageNode.deliverResp (self : StorageNode) : RespMsg → Effect
  | .get k v t r n => self.handle_replica_get_resp k v t r n
  | .put k v t r n => self.handle_replica_put_resp k v t r n
  | .del k v t r n => self.handle_replica_delete_resp k v t r n

/-- Deliver a list of replica responses in order, accumulating every client
message emitted along the way. -/
def StorageNode.runResps (self : StorageNode) : List RespMsg → StorageNode × List LocalMsg
  | [] => (self, [])
  | m :: rest =>
      (((self.deliverResp m).state.runResps rest).1,
        (self.deliverResp m).locals ++ ((self.deliverResp m).state.runResps rest).2)

/-! ## Association list lemmas -/

theorem lookupAL_insertAL_self {α β : Type} [DecidableEq α]
    (l : List (α × β)) (k : α) (v : β) : lookupAL (insertAL l k v) k = some v := by
  induction l with
  | nil => simp [insertAL, lookupAL]
  | cons p rest ih =>
      by_cases h : k = p.1
      · simp [insertAL, lookupAL, h]
      · simp only [insertAL]
        rw [if_neg h]
        simp [lookupAL, h, ih]

theorem lookupAL_insertAL_ne {α β : Type} [DecidableEq α]
    (l : List (α × β)) (k k' : α) (v : β) (h : k' ≠ k) :
    lookupAL (insertAL l k v) k' = lookupAL l k' := by
  induction l with
  | nil => simp [insertAL, lookupAL, h]
  | cons p rest ih =>
      by_cases hk : k = p.1
      · subst hk
        simp only [insertAL, if_pos rfl]
        simp [lookupAL, h]
      · simp only [insertAL]
        rw [if_neg hk]
        by_cases hk' : k' = p.1
        · simp [lookupAL, hk']
        · simp [lookupAL, hk', ih]

theorem lookupAL_eraseAL_self {α β : Type} [DecidableEq α]
    (l : List (α × β)) (k : α) : lookupAL (eraseAL l k) k = none := by
  induction l with
  | nil => simp [eraseAL, lookupAL]
  | cons p rest ih =>
      by_cases h : p.1 = k
      · simpa [eraseAL, h] using ih
      · simp only [eraseAL, if_neg h]
        have hk : ¬k = p.1 := fun hk => h hk.symm
        simp [lookupAL, hk, ih]

theorem insertAL_lookupAL_eq {α β : Type} [DecidableEq α]
    (l : List (α × β)) (k : α) (v : β) (h : lookupAL l k = some v) :
    insertAL l k v = l := by
  induction l with
  | nil => simp [lookupAL] at h
  | cons p rest ih =>
      by_cases hk : k = p.1
      · simp only [lookupAL, if_pos hk] at h
        simp only [insertAL, if_pos hk]
        injection h with h2
        subst h2
        rw [hk]
      · simp only [lookupAL, if_neg hk] at h
        simp only [insertAL, if_neg hk]
        rw [ih h]

theorem length_insertAL_of_mem {α β : Type} [DecidableEq α]
    (l : List (α × β)) (k : α) (v w : β) (h : lookupAL l k = some w) :
    (insertAL l k v).length = l.length := by
  induction l with
  | nil => simp [lookupAL] at h
  | cons p rest ih =>
      by_cases hk : k = p.1
      · simp [insertAL, if_pos hk]
      · simp only [lookupAL, if_neg hk] at h
        simp [insertAL, if_neg hk, ih h]

theorem keysAL_insertAL_of_mem {α β : Type} [DecidableEq α]
    (l : List (α × β)) (k : α) (v w : β) (h : lookupAL l k = some w) :
    keysAL (insertAL l k v) = keysAL l := by
  induction l with
  | nil => simp [lookupAL] at h
  | cons p rest ih =>
      by_cases hk : k = p.1
      · simp [insertAL, if_pos hk, keysAL, hk]
      · simp only [lookupAL, if_neg hk] at h
        simp [insertAL, if_neg hk, keysAL] at *
        exact ih h

theorem keysAL_insertAL_of_not_mem {α β : Type} [DecidableEq α]
    (l : List (α × β)) (k : α) (v : β) (h : lookupAL l k = none) :
    keysAL (insertAL l k v) = keysAL l ++ [k] := by
  induction l with
  | nil => simp [insertAL, keysAL]
  | cons p rest ih =>
      by_cases hk : k = p.1
      · simp [lookupAL, if_pos hk] at h
      · simp only [lookupAL, if_neg hk] at h
        simp [insertAL, if_neg hk, keysAL] at *
        exact ih h

theorem lookupAL_none_iff {α β : Type} [DecidableEq α]
    (l : List (α × β)) (k : α) : lookupAL l k = none ↔ k ∉ keysAL l := by
  induction l with
  | nil => simp [lookupAL, keysAL]
  | cons p rest ih =>
      by_cases hk : k = p.1
      · simp [lookupAL, if_pos hk, keysAL, hk]
      · simp [lookupAL, if_neg hk, keysAL, hk, ih]

theorem length_keysAL {α β : Type} (l : List (α × β)) :
    (keysAL l).length = l.length := by
  simp [keysAL]

theorem nodup_subset_length_le (l m : List String) (hn : l.Nodup)
    (hs : ∀ x ∈ l, x ∈ m) : l.length ≤ m.dedup.length := by
  have h1 : l.length = l.toFinset.card := (List.toFinset_card_of_nodup hn).symm
  have h2 : l.toFinset ⊆ m.toFinset := by
    intro x hx
    rw [List.mem_toFinset] at *
    exact hs x hx
  have h3 : m.toFinset.card = m.dedup.length := List.card_toFinset m
  calc l.length = l.toFinset.card := h1
    _ ≤ m.toFinset.card := Finset.card_le_card h2
    _ = m.dedup.length := h3

/-! ## Order lemmas for the lexicographic comparison -/

theorem listLtB_irrefl (l : List Char) : listLtB l l = false := by
  induction l with
  | nil => rfl
  | cons a as ih => simp [listLtB, ih]

theorem listLtB_asymm (l m : List Char) (h : listLtB l m = true) :
    listLtB m l = false := by
  induction l generalizing m with
  | nil =>
      cases m with
      | nil => simp [listLtB] at h
      | cons b bs => simp [listLtB]
  | cons a as ih =>
      cases m with
      | nil => simp [listLtB] at h
      | cons b bs =>
          simp only [listLtB] at h ⊢
          by_cases h1 : a.toNat < b.toNat
          · rw [if_neg (show ¬b.toNat < a.toNat by omega), if_pos h1]
          · rw [if_neg h1] at h
            by_cases h2 : b.toNat < a.toNat
            · rw [if_pos h2] at h
              cases h
            · rw [if_neg h2] at h
              rw [if_neg h2, if_neg h1]
              exact ih bs h

theorem listLtB_eq (l m : List Char) (h1 : listLtB l m = false)
    (h2 : listLtB m l = false) : l = m := by
  induction l generalizing m with
  | nil =>
      cases m with
      | nil => rfl
      | cons b bs => simp [listLtB] at h1
  | cons a as ih =>
      cases m with
      | nil => simp [listLtB] at h2
      | cons b bs =>
          simp only [listLtB] at h1 h2
          by_cases hab : a.toNat < b.toNat
          · rw [if_pos hab] at h1
            cases h1
          · by_cases hba : b.toNat < a.toNat
            · rw [if_pos hba] at h2
              cases h2
            · rw [if_neg hab, if_neg hba] at h1
              rw [if_neg hba, if_neg hab] at h2
              have hn : a.toNat = b.toNat := by omega
              have hc : a = b := Char.ext (UInt32.ext hn)
              rw [hc, ih bs h1 h2]

theorem listLtB_trans (l m n : List Char) (h1 : listLtB l m = true)
    (h2 : listLtB m n = true) : listLtB l n = true := by
  induction l generalizing m n with
  | nil =>
      cases n with
      | nil =>
          cases m with
          | nil => exact h1
          | cons b bs => simp [listLtB] at h2
      | cons c cs => simp [listLtB]
  | cons a as ih =>
      cases m with
      | nil => simp [listLtB] at h1
      | cons b bs =>
          cases n with
          | nil => simp [listLtB] at h2
          | cons c cs =>
              simp only [listLtB] at h1 h2 ⊢
              by_cases hab : a.toNat < b.toNat
              · by_cases hbc : b.toNat < c.toNat
                · rw [if_pos (by omega)]
                · rw [if_neg hbc] at h2
                  by_cases hcb : c.toNat < b.toNat
                  · rw [if_pos hcb] at h2
                    cases h2
                  · rw [if_pos (by omega)]
              · rw [if_neg hab] at h1
                by_cases hba : b.toNat < a.toNat
                · rw [if_pos hba] at h1
                  cases h1
                · rw [if_neg hba] at h1
                  by_cases hbc : b.toNat < c.toNat
                  · rw [if_pos (by omega)]
                  · rw [if_neg hbc] at h2
                    by_cases hcb : c.toNat < b.toNat
                    · rw [if_pos hcb] at h2
                      cases h2
                    · rw [if_neg hcb] at h2
                      rw [if_neg (by omega), if_neg (by omega)]
                      exact ih bs cs h1 h2

theorem listLtB_of_lt_of_not_lt (l m n : List Char) (h1 : listLtB l n = true)
    (h2 : listLtB m n = false) : listLtB l m = true := by
  induction l generalizing m n with
  | nil =>
      cases n with
      | nil => simp [listLtB] at h1
      | cons c cs =>
          cases m with
          | nil => simp [listLtB] at h2
          | cons b bs => simp [listLtB]
  | cons a as ih =>
      cases n with
      | nil => simp [listLtB] at h1
      | cons c cs =>
          cases m with
          | nil => simp [listLtB] at h2
          | cons b bs =>
              simp only [listLtB] at h1 h2 ⊢
              by_cases hac : a.toNat < c.toNat
              · by_cases hbc : b.toNat < c.toNat
                · rw [if_pos hbc] at h2
                  cases h2
                · by_cases hab : a.toNat < b.toNat
                  · rw [if_pos hab]
                  · rw [if_neg hab, if_neg (by omega)]
                    by_cases hcb : c.toNat < b.toNat
                    · omega
                    · rw [if_neg hbc, if_neg hcb] at h2
                      have hbcn : b.toNat = c.toNat := by omega
                      have habn : a.toNat = b.toNat := by omega
                      omega
              · rw [if_neg hac] at h1
                by_cases hca : c.toNat < a.toNat
                · rw [if_pos hca] at h1
                  cases h1
                · rw [if_neg hca] at h1
                  by_cases hbc : b.toNat < c.toNat
                  · rw [if_pos hbc] at h2
                    cases h2
                  · rw [if_neg hbc] at h2
                    by_cases hcb : c.toNat < b.toNat
                    · rw [if_pos (by omega)]
                    · rw [if_neg hcb] at h2
                      rw [if_neg (by omega), if_neg (by omega)]
                      exact ih bs cs h1 h2

theorem strLtB_irrefl (s : String) : strLtB s s = false := listLtB_irrefl s.data

theorem strLtB_asymm (s t : String) (h : strLtB s t = true) : strLtB t s = false :=
  listLtB_asymm s.data t.data h

theorem strLtB_eq (s t : String) (h1 : strLtB s t = false)
    (h2 : strLtB t s = false) : s = t := by
  cases s with
  | mk ds =>
      cases t with
      | mk es =>
          have h := listLtB_eq ds es h1 h2
          rw [h]

theorem strLtB_trans (s t u : String) (h1 : strLtB s t = true)
    (h2 : strLtB t u = true) : strLtB s u = true :=
  listLtB_trans s.data t.data u.data h1 h2

theorem strLtB_of_lt_of_not_lt (s t u : String) (h1 : strLtB s u = true)
    (h2 : strLtB t u = false) : strLtB s t = true :=
  listLtB_of_lt_of_not_lt s.data t.data u.data h1 h2

/-! ## The §4.2 order is a strict linear order and the merge is its join -/

/-- The value tiebreak at equal timestamps: a tombstone loses to any
concrete value, concrete values compare lexicographically. -/
def valLtB : Option String → Option String → Bool
  | none, some _ => true
  | some v, some w => strLtB v w
  | _, none => false

theorem valLtB_irrefl (v : Option String) : valLtB v v = false := by
  rcases v with _ | a
  · rfl
  · exact strLtB_irrefl a

theorem valLtB_asymm (v w : Option String) (h : valLtB v w = true) :
    valLtB w v = false := by
  rcases v with _ | a <;> rcases w with _ | b
  · cases h
  · rfl
  · cases h
  · exact strLtB_asymm a b h

theorem valLtB_conn (v w : Option String) (h1 : valLtB v w = false)
    (h2 : valLtB w v = false) : v = w := by
  rcases v with _ | a <;> rcases w with _ | b
  · rfl
  · cases h1
  · cases h2
  · rw [strLtB_eq a b h1 h2]

theorem valLtB_trans (v w u : Option String) (h1 : valLtB v w = true)
    (h2 : valLtB w u = true) : valLtB v u = true := by
  rcases v with _ | a <;> rcases w with _ | b <;> rcases u with _ | c
  · cases h1
  · cases h1
  · cases h2
  · rfl
  · cases h1
  · cases h1
  · cases h2
  · exact strLtB_trans a b c h1 h2

theorem valLtB_of_lt_of_not_lt (v w u : Option String) (h1 : valLtB v u = true)
    (h2 : valLtB w u = false) : valLtB v w = true := by
  rcases v with _ | a <;> rcases w with _ | b <;> rcases u with _ | c
  · cases h1
  · cases h2
  · cases h1
  · rfl
  · cases h1
  · cases h2
  · cases h1
  · exact strLtB_of_lt_of_not_lt a b c h1 h2

/-- `cellLtSpec` unfolded through `valLtB`. -/
theorem cellLt_def (c d : Cell) :
    cellLtSpec c d =
      (if c.2 < d.2 then true else if c.2 = d.2 then valLtB c.1 d.1 else false) := by
  rcases c with ⟨cv, ct⟩
  rcases d with ⟨dv, dt⟩
  rcases cv with _ | a <;> rcases dv with _ | b <;> rfl

/-- `should_update` unfolded through `valLtB`. -/
theorem should_update_def (c : Cell) (v : Option String) (t : Int) :
    should_update c v t =
      (if c.2 < t then true else if t = c.2 then valLtB c.1 v else false) := by
  rcases c with ⟨cv, ct⟩
  rcases v with _ | a <;> rcases cv with _ | b <;> rfl

/-- The replica merge decision is precisely the §4.2 strict order. -/
theorem should_update_eq_cellLt (c : Cell) (v : Option String) (t : Int) :
    should_update c v t = cellLtSpec c (v, t) := by
  rw [should_update_def, cellLt_def]
  by_cases h1 : c.2 < t
  · rw [if_pos h1, if_pos h1]
  · rw [if_neg h1, if_neg h1]
    by_cases h2 : t = c.2
    · rw [if_pos h2, if_pos h2.symm]
    · rw [if_neg h2, if_neg fun hh => h2 hh.symm]

theorem cellLt_irrefl (c : Cell) : cellLtSpec c c = false := by
  rw [cellLt_def]
  rw [if_neg (lt_irrefl c.2), if_pos rfl]
  exact valLtB_irrefl c.1

theorem cellLt_asymm (c d : Cell) (h : cellLtSpec c d = true) :
    cellLtSpec d c = false := by
  rw [cellLt_def] at h ⊢
  by_cases h1 : c.2 < d.2
  · rw [if_neg (by omega), if_neg (by omega)]
  · rw [if_neg h1] at h
    by_cases h2 : c.2 = d.2
    · rw [if_pos h2] at h
      rw [if_neg (by omega), if_pos h2.symm]
      exact valLtB_asymm c.1 d.1 h
    · rw [if_neg h2] at h
      cases h

theorem cellLt_conn (c d : Cell) (h1 : cellLtSpec c d = false)
    (h2 : cellLtSpec d c = false) : c = d := by
  rw [cellLt_def] at h1 h2
  by_cases ha : c.2 < d.2
  · rw [if_pos ha] at h1
    cases h1
  · by_cases hb : d.2 < c.2
    · rw [if_pos hb] at h2
      cases h2
    · have he : c.2 = d.2 := by omega
      rw [if_neg ha, if_pos he] at h1
      rw [if_neg hb, if_pos he.symm] at h2
      have hv : c.1 = d.1 := valLtB_conn c.1 d.1 h1 h2
      rcases c with ⟨cv, ct⟩
      rcases d with ⟨dv, dt⟩
      simp only at hv he
      rw [hv, he]

theorem cellLt_trans (c d e : Cell) (h1 : cellLtSpec c d = true)
    (h2 : cellLtSpec d e = true) : cellLtSpec c e = true := by
  rw [cellLt_def] at h1 h2 ⊢
  by_cases hcd : c.2 < d.2
  · by_cases hde : d.2 < e.2
    · rw [if_pos (by omega)]
    · rw [if_neg hde] at h2
      by_cases h2e : d.2 = e.2
      · rw [if_pos (by omega)]
      · rw [if_neg h2e] at h2
        cases h2
  · rw [if_neg hcd] at h1
    by_cases hcd2 : c.2 = d.2
    · rw [if_pos hcd2] at h1
      by_cases hde : d.2 < e.2
      · rw [if_pos (by omega)]
      · rw [if_neg hde] at h2
        by_cases h2e : d.2 = e.2
        · rw [if_pos h2e] at h2
          rw [if_neg (by omega), if_pos (by omega)]
          exact valLtB_trans c.1 d.1 e.1 h1 h2
        · rw [if_neg h2e] at h2
          cases h2
    · rw [if_neg hcd2] at h1
      cases h1

theorem cellLt_of_lt_of_not_lt (c d e : Cell) (h1 : cellLtSpec c e = true)
    (h2 : cellLtSpec d e = false) : cellLtSpec c d = true := by
  rw [cellLt_def] at h1 h2 ⊢
  by_cases hce : c.2 < e.2
  · by_cases hde : d.2 < e.2
    · rw [if_pos hde] at h2
      cases h2
    · rw [if_pos (by omega)]
  · rw [if_neg hce] at h1
    by_cases hce2 : c.2 = e.2
    · rw [if_pos hce2] at h1
      by_cases hde : d.2 < e.2
      · rw [if_pos hde] at h2
        cases h2
      · rw [if_neg hde] at h2
        by_cases hde2 : d.2 = e.2
        · rw [if_pos hde2] at h2
          rw [if_neg (by omega), if_pos (by omega)]
          exact valLtB_of_lt_of_not_lt c.1 d.1 e.1 h1 h2
        · rw [if_neg hde2] at h2
          rw [if_pos (by omega)]
    · rw [if_neg hce2] at h1
      cases h1

theorem mergeCell_lt (a b : Cell) :
    mergeCell a b = if cellLtSpec a b then b else a := by
  rcases b with ⟨bv, bt⟩
  simp only [mergeCell, should_update_eq_cellLt]

theorem mergeCell_comm (a b : Cell) : mergeCell a b = mergeCell b a := by
  rw [mergeCell_lt, mergeCell_lt]
  cases hab : cellLtSpec a b <;> cases hba : cellLtSpec b a
  · simpa using cellLt_conn a b hab hba
  · simp
  · simp
  · have h := cellLt_asymm a b hab
    rw [hba] at h
    cases h

theorem mergeCell_idem (a : Cell) : mergeCell a a = a := by
  rw [mergeCell_lt, cellLt_irrefl]
  simp

theorem mergeCell_assoc (a b c : Cell) :
    mergeCell a (mergeCell b c) = mergeCell (mergeCell a b) c := by
  rw [mergeCell_lt b c, mergeCell_lt a b]
  by_cases hbc : cellLtSpec b c = true
  · by_cases hab : cellLtSpec a b = true
    · rw [if_pos hbc, if_pos hab]
      rw [mergeCell_lt a c, mergeCell_lt b c]
      have hac : cellLtSpec a c = true := cellLt_trans a b c hab hbc
      rw [if_pos hac, if_pos hbc]
    · rw [if_pos hbc, if_neg hab]
  · by_cases hab : cellLtSpec a b = true
    · rw [if_neg hbc, if_pos hab]
      rw [mergeCell_lt a b, mergeCell_lt b c]
      rw [if_pos hab, if_neg hbc]
    · rw [if_neg hbc, if_neg hab]
      have hbc2 : cellLtSpec b c = false := by
        cases h : cellLtSpec b c
        · rfl
        · exact absurd h hbc
      rw [mergeCell_lt a b, mergeCell_lt a c]
      rw [if_neg hab]
      have hac : ¬cellLtSpec a c = true := by
        intro h
        exact hab (cellLt_of_lt_of_not_lt a b c h hbc2)
      rw [if_neg hac]

/-! ## Auxiliary facts about the coordinator reconciliation loop -/

theorem foldl_bestStep_isSome (l : List (String × Cell)) :
    ∀ b : Cell, b.1.isSome → (∀ q ∈ l, q.2.1.isSome) →
      (l.foldl bestStep b).1.isSome := by
  induction l with
  | nil => intro b hb _; exact hb
  | cons p rest ih =>
      intro b hb h
      simp only [List.foldl_cons]
      apply ih
      · unfold bestStep
        by_cases h1 : b.2 < p.2.2
        · rw [if_pos h1]
          exact (h p (List.mem_cons_self p rest))
        · rw [if_neg h1]
          by_cases h2 : p.2.2 = b.2
          · rw [if_pos h2]
            rcases hp : p.2.1 with _ | v
            · simpa using hb
            · rcases hbv : b.1 with _ | w
              · rw [hbv] at hb
                cases hb
              · simp only [hp, hbv]
                by_cases h3 : strLtB w v = true
                · rw [if_pos h3]
                  rfl
                · rw [if_neg h3]
                  exact hb
          · rw [if_neg h2]
            exact hb
      · intro q hq
        exact h q (List.mem_cons_of_mem p hq)

/-- Over a non-empty response set of concrete values at timestamps above
the `-1` sentinel, the reconciliation loop returns a concrete value. -/
theorem computeBest_concrete (responses : List (String × Cell))
    (hne : responses ≠ [])
    (h : ∀ q ∈ responses, q.2.1.isSome ∧ -1 < q.2.2) :
    (computeBest responses).1.isSome := by
  cases responses with
  | nil => exact absurd rfl hne
  | cons p rest =>
      unfold computeBest
      simp only [List.foldl_cons]
      apply foldl_bestStep_isSome
      · have hp := h p (List.mem_cons_self p rest)
        unfold bestStep
        rw [if_pos (by exact hp.2)]
        exact hp.1
      · intro q hq
        exact (h q (List.mem_cons_of_mem p hq)).1

/-! ## Claim theorems -/

/-- C9: state separation.  Replica-side handlers (`REPLICA_GET_REQ`,
`REPLICA_PUT_REQ`, `REPLICA_DELETE_REQ`, `REPLICA_READ_REPAIR`) never touch
the pending-request table or the request counter, and `REPLICA_GET_REQ`
changes no state at all; coordinator-side response handlers and the three
finalizers never touch the local key-value store. -/
theorem C9_state_separation :
    (∀ (s : StorageNode) (key : String) (rid : Nat) (coord : String),
        (s.handle_replica_get_req key rid coord).state = s) ∧
    (∀ (s : StorageNode) (key value : String) (rid : Nat) (coord : String) (t : Int),
        (s.handle_replica_put_req key value rid coord t).state.pending_requests =
            s.pending_requests ∧
        (s.handle_replica_put_req key value rid coord t).state.request_counter =
            s.request_counter) ∧
    (∀ (s : StorageNode) (key : String) (rid : Nat) (coord : String) (t : Int),
        (s.handle_replica_delete_req key rid coord t).state.pending_requests =
            s.pending_requests ∧
        (s.handle_replica_delete_req key rid coord t).state.request_counter =
            s.request_counter) ∧
    (∀ (s : StorageNode) (key : String) (value : Option String) (t : Int),
        (s.handle_replica_read_repair key value t).state.pending_requests =
            s.pending_requests ∧
        (s.handle_replica_read_repair key value t).state.request_counter =
            s.request_counter) ∧
    (∀ (s : StorageNode) (key : String) (value : Option String) (t : Int) (rid : Nat)
        (replica : String),
        (s.handle_replica_get_resp key value t rid replica).state.data = s.data ∧
        (s.handle_replica_put_resp key value t rid replica).state.data = s.data ∧
        (s.handle_replica_delete_resp key value t rid replica).state.data = s.data) ∧
    (∀ (s : StorageNode) (rid : Nat) (p : PendingRequest),
        (s.finalize_get rid p).state.data = s.data ∧
        (s.finalize_put rid p).state.data = s.data ∧
        (s.finalize_delete rid p).state.data = s.data) := by
  refine ⟨?_, ?_, ?_, ?_, ?_, ?_⟩
  · intro s key rid coord
    rfl
  · intro s key value rid coord t
    constructor <;> (simp only [StorageNode.handle_replica_put_req]; split <;> rfl)
  · intro s key rid coord t
    constructor <;> rfl
  · intro s key value t
    constructor <;> (simp only [StorageNode.handle_replica_read_repair]; split <;> rfl)
  · intro s key value t rid replica
    refine ⟨?_, ?_, ?_⟩
    · simp only [StorageNode.handle_replica_get_resp]
      cases h : lookupAL s.pending_requests rid
      · rfl
      · simp only []
        split
        · rfl
        · rfl
    · simp only [StorageNode.handle_replica_put_resp]
      cases h : lookupAL s.pending_requests rid
      · rfl
      · simp only []
        split
        · rfl
        · split <;> rfl
    · simp only [StorageNode.handle_replica_delete_resp]
      cases h : lookupAL s.pending_requests rid
      · rfl
      · simp only []
        split
        · rfl
        · split <;> rfl
  · intro s rid p
    refine ⟨rfl, rfl, rfl⟩

/-- C6: the merge a replica applies when handling `REPLICA_PUT_REQ` and
`REPLICA_READ_REPAIR` is a semilattice join on cells: commutative,
associative and idempotent; and both handlers leave the key's stored cell
at exactly the merge of the previous cell with the incoming cell. -/
theorem C6_merge_semilattice :
    (∀ a b c : Cell,
        mergeCell a b = mergeCell b a ∧
        mergeCell a (mergeCell b c) = mergeCell (mergeCell a b) c ∧
        mergeCell a a = a) ∧
    (∀ (s : StorageNode) (key : String) (value : Option String) (t : Int),
        (lookupAL (s.handle_replica_read_repair key value t).state.data key).getD (none, -1) =
          mergeCell ((lookupAL s.data key).getD (none, -1)) (value, t)) ∧
    (∀ (s : StorageNode) (key value : String) (rid : Nat) (coord : String) (t : Int),
        (lookupAL (s.handle_replica_put_req key value rid coord t).state.data key).getD (none, -1) =
          mergeCell ((lookupAL s.data key).getD (none, -1)) (some value, t)) := by
  refine ⟨fun a b c => ⟨mergeCell_comm a b, mergeCell_assoc a b c, mergeCell_idem a⟩, ?_, ?_⟩
  · intro s key value t
    simp only [StorageNode.handle_replica_read_repair, mergeCell]
    cases h : should_update ((lookupAL s.data key).getD (none, -1)) value t
    · simp [noop]
    · simp [noop, lookupAL_insertAL_self]
  · intro s key value rid coord t
    simp only [StorageNode.handle_replica_put_req, mergeCell]
    cases h : should_update ((lookupAL s.data key).getD (none, -1)) (some value) t
    · simp
    · simp [lookupAL_insertAL_self]

/-- C7: finalization is at most once per request id.  Every finalizer
removes the id from the pending table, and a response for an id with no
pending record (finalized or never created) is a silent drop: identical
state, nothing sent. -/
theorem C7_finalize_once :
    (∀ (s : StorageNode) (rid : Nat) (p : PendingRequest),
        lookupAL (s.finalize_get rid p).state.pending_requests rid = none ∧
        lookupAL (s.finalize_put rid p).state.pending_requests rid = none ∧
        lookupAL (s.finalize_delete rid p).state.pending_requests rid = none) ∧
    (∀ (s : StorageNode) (key : String) (value : Option String) (t : Int) (rid : Nat)
        (replica : String),
        lookupAL s.pending_requests rid = none →
          s.handle_replica_get_resp key value t rid replica = noop s ∧
          s.handle_replica_put_resp key value t rid replica = noop s ∧
          s.handle_replica_delete_resp key value t rid replica = noop s) := by
  constructor
  · intro s rid p
    refine ⟨?_, ?_, ?_⟩ <;>
      exact lookupAL_eraseAL_self s.pending_requests rid
  · intro s key value t rid replica h
    refine ⟨?_, ?_, ?_⟩
    · simp only [StorageNode.handle_replica_get_resp, h]
    · simp only [StorageNode.handle_replica_put_resp, h]
    · simp only [StorageNode.handle_replica_delete_resp, h]

/-- C7 witness: a fresh node has no pending request 5, and a GET, PUT or
DELETE response for it is dropped without any effect. -/
theorem C7_finalize_once_witness :
    lookupAL (StorageNode.init "0" ["0", "1", "2"]).pending_requests 5 = none ∧
    ((StorageNode.init "0" ["0", "1", "2"]).handle_replica_get_resp "k" (some "v") 3 5 "1" =
        noop (StorageNode.init "0" ["0", "1", "2"]) ∧
      (StorageNode.init "0" ["0", "1", "2"]).handle_replica_put_resp "k" (some "v") 3 5 "1" =
        noop (StorageNode.init "0" ["0", "1", "2"]) ∧
      (StorageNode.init "0" ["0", "1", "2"]).handle_replica_delete_resp "k" (some "v") 3 5 "1" =
        noop (StorageNode.init "0" ["0", "1", "2"])) :=
  ⟨rfl, C7_finalize_once.2 (StorageNode.init "0" ["0", "1", "2"]) "k" (some "v") 3 5 "1" rfl⟩

/-- C5: a replica handles `REPLICA_DELETE_REQ` by unconditionally
overwriting the key's cell with the tombstone at the coordinator's
timestamp, replying with the previous cell (`(None, -1)` when the key was
absent); the DELETE finalizer answers the client with the reconciled winner
over these previous cells, a concrete value whenever the quorum observed
concrete previous cells above the sentinel, never the tombstone it wrote. -/
theorem C5_delete_previous_value :
    (∀ (s : StorageNode) (key : String) (rid : Nat) (coord : String) (t : Int),
        lookupAL (s.handle_replica_delete_req key rid coord t).state.data key =
            some (none, t) ∧
        (s.handle_replica_delete_req key rid coord t).sends =
            [(PeerMsg.replicaDeleteResp key
                ((lookupAL s.data key).getD (none, -1)).1
                ((lookupAL s.data key).getD (none, -1)).2 rid s.node_id, coord)] ∧
        (s.handle_replica_delete_req key rid coord t).locals = []) ∧
    (∀ (s : StorageNode) (rid : Nat) (p : PendingRequest),
        (s.finalize_delete rid p).locals =
            [LocalMsg.deleteResp p.key (computeBest p.responses).1] ∧
        (s.finalize_delete rid p).sends = []) ∧
    (∀ responses : List (String × Cell), responses ≠ [] →
        (∀ q ∈ responses, q.2.1.isSome ∧ -1 < q.2.2) →
        (computeBest responses).1.isSome) := by
  refine ⟨?_, ?_, computeBest_concrete⟩
  · intro s key rid coord t
    refine ⟨?_, rfl, rfl⟩
    simp only [StorageNode.handle_replica_delete_req]
    exact lookupAL_insertAL_self s.data key (none, t)
  · intro s rid p
    exact ⟨rfl, rfl⟩

/-- C5 witness: concrete run: stored cell `("v1", 1)`, delete at `t = 9`
overwrites to the tombstone and reports `("v1", 1)`; a finalizer over the
previous cells of two replicas answers `"v1"`; and the concreteness fact
instantiated. -/
theorem C5_delete_previous_value_witness :
    lookupAL ((StorageNode.mk "0" ["0", "1", "2"] 3 [("x", (some "v1", 1))] [] 0).handle_replica_delete_req
        "x" 4 "1" 9).state.data "x" = some (none, 9) ∧
    ((StorageNode.mk "0" ["0", "1", "2"] 3 [("x", (some "v1", 1))] [] 0).handle_replica_delete_req
        "x" 4 "1" 9).sends =
      [(PeerMsg.replicaDeleteResp "x" (some "v1") 1 4 "0", "1")] ∧
    ([("0", ((some "v1" : Option String), (1 : Int))), ("1", (some "v1", 1))] ≠ [] ∧
      (computeBest [("0", (some "v1", 1)), ("1", (some "v1", 1))]).1.isSome) := by
  have h1 := (C5_delete_previous_value.1 (StorageNode.mk "0" ["0", "1", "2"] 3
    [("x", (some "v1", 1))] [] 0) "x" 4 "1" 9)
  refine ⟨h1.1, ?_, by decide, ?_⟩
  · have h2 := h1.2.1
    simpa using h2
  · exact C5_delete_previous_value.2.2 [("0", (some "v1", 1)), ("1", (some "v1", 1))]
      (by decide) (by decide)

/-! ## Concrete scenarios -/

/-- A GET pending request whose first recorded response (insertion order)
is the tombstone `(None, 5)`. -/
def pendingTombFirst : PendingRequest :=
  { operation := Op.GET, key := "k", value := none, replicas := ["0", "1", "2"]
    quorum := 2, responses := [("r1", (none, 5))], timestamp_sent := 0, timestamp := none }

/-- The same pending request with the concrete response `("a", 5)` recorded
first instead. -/
def pendingValFirst : PendingRequest :=
  { operation := Op.GET, key := "k", value := none, replicas := ["0", "1", "2"]
    quorum := 2, responses := [("r2", (some "a", 5))], timestamp_sent := 0, timestamp := none }

/-- A coordinator holding `pendingTombFirst` as request 7. -/
def nodeTombFirst : StorageNode :=
  { node_id := "0", nodes := ["0", "1", "2"], node_count := 3, data := []
    pending_requests := [(7, pendingTombFirst)], request_counter := 8 }

/-- A coordinator holding `pendingValFirst` as request 7. -/
def nodeValFirst : StorageNode :=
  { node_id := "0", nodes := ["0", "1", "2"], node_count := 3, data := []
    pending_requests := [(7, pendingValFirst)], request_counter := 8 }

/-- C1: the coordinator finalizers do not follow §4.2 at equal timestamps
when exactly one value is a tombstone: with the tombstone `(None, 5)`
recorded first, the arriving concrete `("a", 5)` quorum-completes the GET
and the client is answered with the tombstone, while the mirrored recording
order answers `"a"` — even though §4.2 ranks the concrete value strictly
above the tombstone.  The loop's `value is not None and best_value is not
None` guard skips the tombstone-vs-concrete tiebreak. -/
theorem C1_equal_timestamp_tombstone_bug :
    (nodeTombFirst.handle_replica_get_resp "k" (some "a") 5 7 "r2").locals =
        [LocalMsg.getResp "k" none] ∧
    (nodeValFirst.handle_replica_get_resp "k" none 5 7 "r1").locals =
        [LocalMsg.getResp "k" (some "a")] ∧
    cellLtSpec (none, 5) (some "a", 5) = true := by decide

/-- C4: on the same scenario the read repair goes to exactly the wrong
replica: the repair carrying the tombstone winner `(None, 5)` is sent to
`r2`, whose recorded cell `("a", 5)` is *not* §4.2-below the winner (it is
strictly above it), violating "strictly less than the winning cell". -/
theorem C4_read_repair_bug :
    (nodeTombFirst.handle_replica_get_resp "k" (some "a") 5 7 "r2").sends =
        [(PeerMsg.replicaReadRepair "k" none 5, "r2")] ∧
    cellLtSpec (some "a", 5) (none, 5) = false := by decide

/-- A PUT pending request with quorum 1 and no responses yet. -/
def pendingPutQ1 : PendingRequest :=
  { operation := Op.PUT, key := "k", value := some "v", replicas := ["0", "1", "2"]
    quorum := 1, responses := [], timestamp_sent := 3, timestamp := some 3 }

/-- A coordinator holding `pendingPutQ1` as request 7. -/
def nodePutQ1 : StorageNode :=
  { node_id := "0", nodes := ["0", "1", "2"], node_count := 3, data := []
    pending_requests := [(7, pendingPutQ1)], request_counter := 8 }

/-- C2 fails for GET responses: `_handle_replica_get_resp` checks no
operation tag, so a `REPLICA_GET_RESP` naming a PUT pending request is
recorded — here it even completes the quorum and runs the GET finalizer
against the PUT pending, emitting a `GET_RESP` — instead of being silently
dropped with the state unchanged. -/
theorem C2_counterexample :
    (nodePutQ1.handle_replica_get_resp "k" (some "v") 3 7 "r1").state ≠ nodePutQ1 ∧
    (nodePutQ1.handle_replica_get_resp "k" (some "v") 3 7 "r1").locals =
        [LocalMsg.getResp "k" (some "v")] := by decide

/-- C2 amended: only `REPLICA_PUT_RESP` and `REPLICA_DELETE_RESP` check the
pending operation tag; when it disagrees the response is silently dropped
with the node state unchanged and nothing sent. -/
theorem C2_mismatch_drop :
    ∀ (s : StorageNode) (key : String) (value : Option String) (t : Int) (rid : Nat)
      (replica : String) (p : PendingRequest),
      lookupAL s.pending_requests rid = some p →
      (p.operation ≠ Op.PUT →
          s.handle_replica_put_resp key value t rid replica = noop s) ∧
      (p.operation ≠ Op.DELETE →
          s.handle_replica_delete_resp key value t rid replica = noop s) := by
  intro s key value t rid replica p h
  constructor
  · intro hop
    simp only [StorageNode.handle_replica_put_resp, h]
    rw [if_pos hop]
  · intro hop
    simp only [StorageNode.handle_replica_delete_resp, h]
    rw [if_pos hop]

/-- A GET pending request with quorum 2 and no responses yet. -/
def pendingGetQ2 : PendingRequest :=
  { operation := Op.GET, key := "k", value := none, replicas := ["0", "1", "2"]
    quorum := 2, responses := [], timestamp_sent := 0, timestamp := none }

/-- A coordinator holding `pendingGetQ2` as request 9. -/
def nodeGetQ2 : StorageNode :=
  { node_id := "0", nodes := ["0", "1", "2"], node_count := 3, data := []
    pending_requests := [(9, pendingGetQ2)], request_counter := 10 }

/-- C2 amended, witnessed: PUT and DELETE responses naming the GET pending
request 9 are silently dropped. -/
theorem C2_mismatch_drop_witness :
    nodeGetQ2.handle_replica_put_resp "k" (some "v") 3 9 "r1" = noop nodeGetQ2 ∧
    nodeGetQ2.handle_replica_delete_resp "k" (some "v") 3 9 "r1" = noop nodeGetQ2 :=
  ⟨(C2_mismatch_drop nodeGetQ2 "k" (some "v") 3 9 "r1" pendingGetQ2 (by decide)).1
      (by decide),
    (C2_mismatch_drop nodeGetQ2 "k" (some "v") 3 9 "r1" pendingGetQ2 (by decide)).2
      (by decide)⟩

/-- A node list the source's placement can never return entries of. -/
def nodesXYZ : List String := ["x", "y", "z"]

set_option maxRecDepth 100000 in
/-- C3 fails: the source's placement receives only the node *count* and
returns decimal index strings, never entries of the node list.  For key
`"a"` and nodes `["x", "y", "z"]` the spec's algorithm yields
`["y", "z", "x"]` but the code yields `["1", "2", "0"]`. -/
theorem C3_counterexample :
    get_key_replicas "a" nodesXYZ.length = ["1", "2", "0"] ∧
    replicas_of_spec "a" nodesXYZ = ["y", "z", "x"] ∧
    get_key_replicas "a" nodesXYZ.length ≠ replicas_of_spec "a" nodesXYZ := by
  decide

/-- C3 amended: placement hashes the key with MD5 (digest read as an
unsigned little-endian integer `H`) but then ignores the node identifiers,
emitting the decimal strings of the indices `H mod N`, `(H+1) mod N`,
`(H+2) mod N`.  It agrees with the spec's sorted-list indexing exactly when
the node identifiers are the decimal strings `"0" … str(N-1)` (here for
`N ≤ 10`, where their lexicographic sort is the numeric order). -/
theorem C3_amended_placement (key : String) (n : Nat) (h1 : 0 < n) (h2 : n ≤ 10) :
    replicas_of_spec key ((List.range n).map (fun i => toString i)) =
      get_key_replicas key n := by
  have hsort : sortStrings ((List.range n).map (fun i => toString i)) =
      (List.range n).map (fun i => toString i) := by
    interval_cases n <;> decide
  have hlen : ((List.range n).map (fun i => toString i)).length = n := by simp
  have hget : ∀ i : Nat, i < n →
      ((List.range n).map (fun i => toString i)).getD i "" = toString i := by
    intro i hi
    rw [List.getD_eq_getElem?_getD, List.getElem?_map, List.getElem?_range hi]
    rfl
  have e0 : md5KeyHash key % n < n := Nat.mod_lt _ h1
  have e1 : (md5KeyHash key + 1) % n < n := Nat.mod_lt _ h1
  have e2 : (md5KeyHash key + 2) % n < n := Nat.mod_lt _ h1
  simp only [replicas_of_spec, get_key_replicas, get_next_replica, hsort, hlen]
  rw [hget _ e0, hget _ e1, hget _ e2]
  have i1 : (md5KeyHash key + 1) % n = (md5KeyHash key % n + 1) % n :=
    (Nat.mod_add_mod (md5KeyHash key) n 1).symm
  have i2 : (md5KeyHash key + 2) % n = ((md5KeyHash key % n + 1) % n + 1) % n := by
    rw [Nat.mod_add_mod]
    exact (Nat.mod_add_mod (md5KeyHash key) n 2).symm
  rw [i1, i2]

/-- C3 amended, witnessed at `key = "a"`, three nodes named `"0"`, `"1"`,
`"2"`. -/
theorem C3_amended_placement_witness :
    replicas_of_spec "a" ((List.range 3).map (fun i => toString i)) =
      get_key_replicas "a" 3 :=
  C3_amended_placement "a" 3 (by decide) (by decide)

/-! ## Idempotence of duplicate replica responses -/

theorem redundant_get_resp (s : StorageNode) (key : String) (v : Option String)
    (t : Int) (rid : Nat) (replica : String) (q : PendingRequest)
    (hq : lookupAL s.pending_requests rid = some q)
    (hslot : lookupAL q.responses replica = some (v, t))
    (hg : ¬q.quorum ≤ (q.responses.length : Int)) :
    s.handle_replica_get_resp key v t rid replica = noop s := by
  have hresp : insertAL q.responses replica (v, t) = q.responses :=
    insertAL_lookupAL_eq q.responses replica (v, t) hslot
  have htab : insertAL s.pending_requests rid q = s.pending_requests :=
    insertAL_lookupAL_eq s.pending_requests rid q hq
  simp only [StorageNode.handle_replica_get_resp, hq, hresp, htab]
  rw [if_neg hg]

theorem redundant_put_resp (s : StorageNode) (key : String) (v : Option String)
    (t : Int) (rid : Nat) (replica : String) (q : PendingRequest)
    (hq : lookupAL s.pending_requests rid = some q)
    (hslot : lookupAL q.responses replica = some (v, t))
    (hg : ¬q.quorum ≤ (q.responses.length : Int)) :
    s.handle_replica_put_resp key v t rid replica = noop s := by
  have hresp : insertAL q.responses replica (v, t) = q.responses :=
    insertAL_lookupAL_eq q.responses replica (v, t) hslot
  have htab : insertAL s.pending_requests rid q = s.pending_requests :=
    insertAL_lookupAL_eq s.pending_requests rid q hq
  simp only [StorageNode.handle_replica_put_resp, hq, hresp, htab]
  by_cases hop : q.operation ≠ Op.PUT
  · rw [if_pos hop]
  · rw [if_neg hop, if_neg hg]

theorem redundant_delete_resp (s : StorageNode) (key : String) (v : Option String)
    (t : Int) (rid : Nat) (replica : String) (q : PendingRequest)
    (hq : lookupAL s.pending_requests rid = some q)
    (hslot : lookupAL q.responses replica = some (v, t))
    (hg : ¬q.quorum ≤ (q.responses.length : Int)) :
    s.handle_replica_delete_resp key v t rid replica = noop s := by
  have hresp : insertAL q.responses replica (v, t) = q.responses :=
    insertAL_lookupAL_eq q.responses replica (v, t) hslot
  have htab : insertAL s.pending_requests rid q = s.pending_requests :=
    insertAL_lookupAL_eq s.pending_requests rid q hq
  simp only [StorageNode.handle_replica_delete_resp, hq, hresp, htab]
  by_cases hop : q.operation ≠ Op.DELETE
  · rw [if_pos hop]
  · rw [if_neg hop, if_neg hg]

theorem resp_idem_get (s : StorageNode) (key : String) (v : Option String) (t : Int)
    (rid : Nat) (replica : String) :
    (s.handle_replica_get_resp key v t rid replica).state.handle_replica_get_resp
        key v t rid replica =
      noop (s.handle_replica_get_resp key v t rid replica).state := by
  cases h : lookupAL s.pending_requests rid with
  | none =>
      have e1 : s.handle_replica_get_resp key v t rid replica = noop s := by
        simp only [StorageNode.handle_replica_get_resp, h]
      rw [e1]
      exact e1
  | some p =>
      set p2 : PendingRequest :=
        { p with responses := insertAL p.responses replica (v, t) } with hp2
      set s2 : StorageNode :=
        { s with pending_requests := insertAL s.pending_requests rid p2 } with hs2
      have e1 : s.handle_replica_get_resp key v t rid replica =
          if p2.quorum ≤ (p2.responses.length : Int) then s2.finalize_get rid p2
          else noop s2 := by
        simp only [StorageNode.handle_replica_get_resp, h, hs2, hp2]
      by_cases hg : p2.quorum ≤ (p2.responses.length : Int)
      · rw [e1, if_pos hg]
        have hn : lookupAL (s2.finalize_get rid p2).state.pending_requests rid = none :=
          lookupAL_eraseAL_self s2.pending_requests rid
        simp only [StorageNode.handle_replica_get_resp, hn]
      · rw [e1, if_neg hg]
        exact redundant_get_resp s2 key v t rid replica p2
          (lookupAL_insertAL_self s.pending_requests rid p2)
          (lookupAL_insertAL_self p.responses replica (v, t))
          hg

theorem resp_idem_put (s : StorageNode) (key : String) (v : Option String) (t : Int)
    (rid : Nat) (replica : String) :
    (s.handle_replica_put_resp key v t rid replica).state.handle_replica_put_resp
        key v t rid replica =
      noop (s.handle_replica_put_resp key v t rid replica).state := by
  cases h : lookupAL s.pending_requests rid with
  | none =>
      have e1 : s.handle_replica_put_resp key v t rid replica = noop s := by
        simp only [StorageNode.handle_replica_put_resp, h]
      rw [e1]
      exact e1
  | some p =>
      by_cases hop : p.operation = Op.PUT
      · set p2 : PendingRequest :=
          { p with responses := insertAL p.responses replica (v, t) } with hp2
        set s2 : StorageNode :=
          { s with pending_requests := insertAL s.pending_requests rid p2 } with hs2
        have hopn : ¬p.operation ≠ Op.PUT := fun hh => hh hop
        have e1 : s.handle_replica_put_resp key v t rid replica =
            if p2.quorum ≤ (p2.responses.length : Int) then s2.finalize_put rid p2
            else noop s2 := by
          simp only [StorageNode.handle_replica_put_resp, h, hs2, hp2]
          rw [if_neg hopn]
        by_cases hg : p2.quorum ≤ (p2.responses.length : Int)
        · rw [e1, if_pos hg]
          have hn : lookupAL (s2.finalize_put rid p2).state.pending_requests rid = none :=
            lookupAL_eraseAL_self s2.pending_requests rid
          simp only [StorageNode.handle_replica_put_resp, hn]
        · rw [e1, if_neg hg]
          exact redundant_put_resp s2 key v t rid replica p2
            (lookupAL_insertAL_self s.pending_requests rid p2)
            (lookupAL_insertAL_self p.responses replica (v, t))
            hg
      · have hne : p.operation ≠ Op.PUT := hop
        have e1 : s.handle_replica_put_resp key v t rid replica = noop s := by
          simp only [StorageNode.handle_replica_put_resp, h]
          rw [if_pos hne]
        rw [e1]
        exact e1

theorem resp_idem_del (s : StorageNode) (key : String) (v : Option String) (t : Int)
    (rid : Nat) (replica : String) :
    (s.handle_replica_delete_resp key v t rid replica).state.handle_replica_delete_resp
        key v t rid replica =
      noop (s.handle_replica_delete_resp key v t rid replica).state := by
  cases h : lookupAL s.pending_requests rid with
  | none =>
      have e1 : s.handle_replica_delete_resp key v t rid replica = noop s := by
        simp only [StorageNode.handle_replica_delete_resp, h]
      rw [e1]
      exact e1
  | some p =>
      by_cases hop : p.operation = Op.DELETE
      · set p2 : PendingRequest :=
          { p with responses := insertAL p.responses replica (v, t) } with hp2
        set s2 : StorageNode :=
          { s with pending_requests := insertAL s.pending_requests rid p2 } with hs2
        have hopn : ¬p.operation ≠ Op.DELETE := fun hh => hh hop
        have e1 : s.handle_replica_delete_resp key v t rid replica =
            if p2.quorum ≤ (p2.responses.length : Int) then s2.finalize_delete rid p2
            else noop s2 := by
          simp only [StorageNode.handle_replica_delete_resp, h, hs2, hp2]
          rw [if_neg hopn]
        by_cases hg : p2.quorum ≤ (p2.responses.length : Int)
        · rw [e1, if_pos hg]
          have hn : lookupAL (s2.finalize_delete rid p2).state.pending_requests rid = none :=
            lookupAL_eraseAL_self s2.pending_requests rid
          simp only [StorageNode.handle_replica_delete_resp, hn]
        · rw [e1, if_neg hg]
          exact redundant_delete_resp s2 key v t rid replica p2
            (lookupAL_insertAL_self s.pending_requests rid p2)
            (lookupAL_insertAL_self p.responses replica (v, t))
            hg
      · have hne : p.operation ≠ Op.DELETE := hop
        have e1 : s.handle_replica_delete_resp key v t rid replica = noop s := by
          simp only [StorageNode.handle_replica_delete_resp, h]
          rw [if_pos hne]
        rw [e1]
        exact e1

/-- C8: while a request is pending, a duplicate response from the same
replica overwrites that replica's slot (last-writer-wins) without raising
the distinct-replica count that alone gates the quorum; non-finalizing
deliveries store exactly the slot-updated pending request; and delivering
the same `REPLICA_*_RESP` twice leaves the state and client output of a
single delivery unchanged (the second delivery is a silent no-op). -/
theorem C8_duplicate_responses :
    (∀ (resp : List (String × Cell)) (replica : String) (old c : Cell),
        lookupAL resp replica = some old →
        lookupAL (insertAL resp replica c) replica = some c ∧
        (insertAL resp replica c).length = resp.length) ∧
    (∀ (s : StorageNode) (key : String) (v : Option String) (t : Int) (rid : Nat)
        (replica : String) (p : PendingRequest),
        lookupAL s.pending_requests rid = some p →
        ¬p.quorum ≤ ((insertAL p.responses replica (v, t)).length : Int) →
        lookupAL (s.handle_replica_get_resp key v t rid replica).state.pending_requests
            rid =
          some { p with responses := insertAL p.responses replica (v, t) }) ∧
    (∀ (s : StorageNode) (key : String) (v : Option String) (t : Int) (rid : Nat)
        (replica : String),
        (s.handle_replica_get_resp key v t rid replica).state.handle_replica_get_resp
            key v t rid replica =
          noop (s.handle_replica_get_resp key v t rid replica).state ∧
        (s.handle_replica_put_resp key v t rid replica).state.handle_replica_put_resp
            key v t rid replica =
          noop (s.handle_replica_put_resp key v t rid replica).state ∧
        (s.handle_replica_delete_resp key v t rid replica).state.handle_replica_delete_resp
            key v t rid replica =
          noop (s.handle_replica_delete_resp key v t rid replica).state) := by
  refine ⟨?_, ?_, ?_⟩
  · intro resp replica old c h
    exact ⟨lookupAL_insertAL_self resp replica c,
      length_insertAL_of_mem resp replica c old h⟩
  · intro s key v t rid replica p h hg
    simp only [StorageNode.handle_replica_get_resp, h]
    rw [if_neg hg]
    exact lookupAL_insertAL_self s.pending_requests rid _
  · intro s key v t rid replica
    exact ⟨resp_idem_get s key v t rid replica, resp_idem_put s key v t rid replica,
      resp_idem_del s key v t rid replica⟩

/-- C8 witnessed on concrete data: overwriting the recorded slot of `r1`
keeps one distinct responder, and a below-quorum delivery stores the
slot-updated pending request. -/
theorem C8_duplicate_responses_witness :
    (lookupAL (insertAL [("r1", ((none : Option String), (5 : Int)))] "r1"
          (some "b", 6)) "r1" = some (some "b", 6) ∧
      (insertAL [("r1", ((none : Option String), (5 : Int)))] "r1"
          (some "b", 6)).length =
        [("r1", ((none : Option String), (5 : Int)))].length) ∧
    lookupAL ((nodeGetQ2.handle_replica_get_resp "k" (some "v") 3 9
        "r1").state.pending_requests) 9 =
      some { pendingGetQ2 with
              responses := insertAL pendingGetQ2.responses "r1" (some "v", 3) } :=
  ⟨C8_duplicate_responses.1 [("r1", (none, 5))] "r1" (none, 5) (some "b", 6) (by decide),
    C8_duplicate_responses.2.1 nodeGetQ2 "k" (some "v") 3 9 "r1" pendingGetQ2
      (by decide) (by decide)⟩

/-! ## A pending request with an unreachable quorum is stranded forever -/

theorem keys_insertAL_nodup {α β : Type} [DecidableEq α] (l : List (α × β))
    (k : α) (v : β) (h : (keysAL l).Nodup) : (keysAL (insertAL l k v)).Nodup := by
  cases hl : lookupAL l k with
  | some w =>
      rw [keysAL_insertAL_of_mem l k v w hl]
      exact h
  | none =>
      rw [keysAL_insertAL_of_not_mem l k v hl]
      have hk : k ∉ keysAL l := (lookupAL_none_iff l k).mp hl
      simp [List.nodup_append, h, hk]

theorem keys_insertAL_subset {β : Type} (l : List (String × β)) (k : String)
    (v : β) (S : List String) (hs : ∀ x ∈ keysAL l, x ∈ S) (hk : k ∈ S) :
    ∀ x ∈ keysAL (insertAL l k v), x ∈ S := by
  cases hl : lookupAL l k with
  | some w =>
      rw [keysAL_insertAL_of_mem l k v w hl]
      exact hs
  | none =>
      rw [keysAL_insertAL_of_not_mem l k v hl]
      intro x hx
      rcases List.mem_append.mp hx with hx1 | hx2
      · exact hs x hx1
      · rw [List.mem_singleton.mp hx2]
        exact hk

/-- With a quorum strictly above the number of distinct placement replicas,
recording one more response from a placement replica can never reach the
quorum threshold. -/
theorem gate_blocked (p : PendingRequest) (n : String) (c : Cell)
    (hnd : (keysAL p.responses).Nodup)
    (hsub : ∀ x ∈ keysAL p.responses, x ∈ p.replicas)
    (hn : n ∈ p.replicas)
    (hq : (p.replicas.dedup.length : Int) < p.quorum) :
    ¬p.quorum ≤ ((insertAL p.responses n c).length : Int) := by
  have h1 : (keysAL (insertAL p.responses n c)).Nodup :=
    keys_insertAL_nodup p.responses n c hnd
  have h2 : ∀ x ∈ keysAL (insertAL p.responses n c), x ∈ p.replicas :=
    keys_insertAL_subset p.responses n c p.replicas hsub hn
  have h3 : (keysAL (insertAL p.responses n c)).length ≤ p.replicas.dedup.length :=
    nodup_subset_length_le (keysAL (insertAL p.responses n c)) p.replicas h1 h2
  rw [length_keysAL] at h3
  intro hc
  omega

/-- One delivery of a placement-replica response to a pending request whose
quorum exceeds the distinct replica count: the request stays pending (with
the same replicas and quorum, and well-formed response slots) and nothing
reaches the client. -/
theorem stranded_one (s : StorageNode) (rid : Nat) (p : PendingRequest) (m : RespMsg)
    (hp : lookupAL s.pending_requests rid = some p)
    (hnd : (keysAL p.responses).Nodup)
    (hsub : ∀ x ∈ keysAL p.responses, x ∈ p.replicas)
    (hq : (p.replicas.dedup.length : Int) < p.quorum)
    (hmr : m.rid = rid) (hms : m.sender ∈ p.replicas) :
    ∃ p2 : PendingRequest,
      lookupAL (s.deliverResp m).state.pending_requests rid = some p2 ∧
      (s.deliverResp m).locals = [] ∧
      p2.replicas = p.replicas ∧ p2.quorum = p.quorum ∧
      (keysAL p2.responses).Nodup ∧
      (∀ x ∈ keysAL p2.responses, x ∈ p2.replicas) := by
  cases m with
  | get k v t rid' n =>
      obtain rfl : rid' = rid := hmr
      have hn : n ∈ p.replicas := hms
      have hg : ¬p.quorum ≤ ((insertAL p.responses n (v, t)).length : Int) :=
        gate_blocked p n (v, t) hnd hsub hn hq
      refine ⟨{ p with responses := insertAL p.responses n (v, t) }, ?_, ?_, rfl, rfl,
        keys_insertAL_nodup p.responses n (v, t) hnd,
        keys_insertAL_subset p.responses n (v, t) p.replicas hsub hn⟩
      · simp only [StorageNode.deliverResp, StorageNode.handle_replica_get_resp, hp]
        rw [if_neg hg]
        exact lookupAL_insertAL_self s.pending_requests _ _
      · simp only [StorageNode.deliverResp, StorageNode.handle_replica_get_resp, hp]
        rw [if_neg hg]
        rfl
  | put k v t rid' n =>
      obtain rfl : rid' = rid := hmr
      have hn : n ∈ p.replicas := hms
      by_cases hop : p.operation ≠ Op.PUT
      · refine ⟨p, ?_, ?_, rfl, rfl, hnd, hsub⟩
        · simp only [StorageNode.deliverResp, StorageNode.handle_replica_put_resp, hp]
          rw [if_pos hop]
          exact hp
        · simp only [StorageNode.deliverResp, StorageNode.handle_replica_put_resp, hp]
          rw [if_pos hop]
          rfl
      · have hg : ¬p.quorum ≤ ((insertAL p.responses n (v, t)).length : Int) :=
          gate_blocked p n (v, t) hnd hsub hn hq
        refine ⟨{ p with responses := insertAL p.responses n (v, t) }, ?_, ?_, rfl, rfl,
          keys_insertAL_nodup p.responses n (v, t) hnd,
          keys_insertAL_subset p.responses n (v, t) p.replicas hsub hn⟩
        · simp only [StorageNode.deliverResp, StorageNode.handle_replica_put_resp, hp]
          rw [if_neg hop, if_neg hg]
          exact lookupAL_insertAL_self s.pending_requests _ _
        · simp only [StorageNode.deliverResp, StorageNode.handle_replica_put_resp, hp]
          rw [if_neg hop, if_neg hg]
          rfl
  | del k v t rid' n =>
      obtain rfl : rid' = rid := hmr
      have hn : n ∈ p.replicas := hms
      by_cases hop : p.operation ≠ Op.DELETE
      · refine ⟨p, ?_, ?_, rfl, rfl, hnd, hsub⟩
        · simp only [StorageNode.deliverResp, StorageNode.handle_replica_delete_resp, hp]
          rw [if_pos hop]
          exact hp
        · simp only [StorageNode.deliverResp, StorageNode.handle_replica_delete_resp, hp]
          rw [if_pos hop]
          rfl
      · have hg : ¬p.quorum ≤ ((insertAL p.responses n (v, t)).length : Int) :=
          gate_blocked p n (v, t) hnd hsub hn hq
        refine ⟨{ p with responses := insertAL p.responses n (v, t) }, ?_, ?_, rfl, rfl,
          keys_insertAL_nodup p.responses n (v, t) hnd,
          keys_insertAL_subset p.responses n (v, t) p.replicas hsub hn⟩
        · simp only [StorageNode.deliverResp, StorageNode.handle_replica_delete_resp, hp]
          rw [if_neg hop, if_neg hg]
          exact lookupAL_insertAL_self s.pending_requests _ _
        · simp only [StorageNode.deliverResp, StorageNode.handle_replica_delete_resp, hp]
          rw [if_neg hop, if_neg hg]
          rfl

/-- Delivering any sequence of placement-replica responses for a pending
request whose quorum exceeds the distinct replica count: the request is
never finalized and the client never hears back. -/
theorem runResps_stranded (msgs : List RespMsg) :
    ∀ (s : StorageNode) (rid : Nat) (p : PendingRequest),
      lookupAL s.pending_requests rid = some p →
      (keysAL p.responses).Nodup →
      (∀ x ∈ keysAL p.responses, x ∈ p.replicas) →
      ((p.replicas.dedup.length : Int) < p.quorum) →
      (∀ m ∈ msgs, m.rid = rid ∧ m.sender ∈ p.replicas) →
      ∃ p2 : PendingRequest,
        lookupAL (s.runResps msgs).1.pending_requests rid = some p2 ∧
        (s.runResps msgs).2 = [] ∧
        p2.replicas = p.replicas ∧ p2.quorum = p.quorum := by
  induction msgs with
  | nil =>
      intro s rid p hp hnd hsub hq hmsgs
      exact ⟨p, hp, rfl, rfl, rfl⟩
  | cons m rest ih =>
      intro s rid p hp hnd hsub hq hmsgs
      obtain ⟨hmr, hms⟩ := hmsgs m (List.mem_cons_self m rest)
      obtain ⟨p2, hp2, hloc, hrep, hquo, hnd2, hsub2⟩ :=
        stranded_one s rid p m hp hnd hsub hq hmr hms
      obtain ⟨p3, hp3, hloc3, hrep3, hquo3⟩ :=
        ih (s.deliverResp m).state rid p2 hp2 hnd2 hsub2
          (by rw [hrep, hquo]; exact hq)
          (by
            intro m2 hm2
            obtain ⟨h1, h2⟩ := hmsgs m2 (List.mem_cons_of_mem m hm2)
            exact ⟨h1, by rw [hrep]; exact h2⟩)
      refine ⟨p3, ?_, ?_, by rw [hrep3, hrep], by rw [hquo3, hquo]⟩
      · simp only [StorageNode.runResps]
        exact hp3
      · simp only [StorageNode.runResps, hloc, hloc3, List.nil_append]

/-- C10: the client's quorum field is stored verbatim, unvalidated.  Every
local GET/PUT/DELETE creates its pending request with the given quorum and
an empty response map and answers nothing yet; when the quorum is ≤ 1
(including 0 and negatives) the first matching replica response finalizes
the request (so never zero responses); and when the quorum exceeds the
number of distinct placement replicas, no sequence of placement-replica
responses ever finalizes it — the client receives no reply. -/
theorem C10_quorum_unvalidated :
    (∀ (s : StorageNode) (key : String) (q now : Int),
        (s.handle_local_get key q now).locals = [] ∧
        lookupAL (s.handle_local_get key q now).state.pending_requests
            s.request_counter =
          some { operation := Op.GET, key := key, value := none,
                 replicas := get_key_replicas key s.node_count, quorum := q,
                 responses := [], timestamp_sent := now, timestamp := none }) ∧
    (∀ (s : StorageNode) (key value : String) (q now : Int),
        (s.handle_local_put key value q now).locals = [] ∧
        lookupAL (s.handle_local_put key value q now).state.pending_requests
            s.request_counter =
          some { operation := Op.PUT, key := key, value := some value,
                 replicas := get_key_replicas key s.node_count, quorum := q,
                 responses := [], timestamp_sent := now, timestamp := some now }) ∧
    (∀ (s : StorageNode) (key : String) (q now : Int),
        (s.handle_local_delete key q now).locals = [] ∧
        lookupAL (s.handle_local_delete key q now).state.pending_requests
            s.request_counter =
          some { operation := Op.DELETE, key := key, value := none,
                 replicas := get_key_replicas key s.node_count, quorum := q,
                 responses := [], timestamp_sent := now, timestamp := some now }) ∧
    (∀ (s : StorageNode) (key : String) (v : Option String) (t : Int) (rid : Nat)
        (replica : String) (p : PendingRequest),
        lookupAL s.pending_requests rid = some p → p.responses = [] → p.quorum ≤ 1 →
        (lookupAL (s.handle_replica_get_resp key v t rid replica).state.pending_requests
              rid = none ∧
          (s.handle_replica_get_resp key v t rid replica).locals =
            [LocalMsg.getResp p.key (computeBest [(replica, (v, t))]).1]) ∧
        (p.operation = Op.PUT →
          lookupAL (s.handle_replica_put_resp key v t rid replica).state.pending_requests
              rid = none ∧
          (s.handle_replica_put_resp key v t rid replica).locals =
            [LocalMsg.putResp p.key (computeBest [(replica, (v, t))]).1]) ∧
        (p.operation = Op.DELETE →
          lookupAL (s.handle_replica_delete_resp key v t rid
              replica).state.pending_requests rid = none ∧
          (s.handle_replica_delete_resp key v t rid replica).locals =
            [LocalMsg.deleteResp p.key (computeBest [(replica, (v, t))]).1])) ∧
    (∀ (s : StorageNode) (rid : Nat) (p : PendingRequest) (msgs : List RespMsg),
        lookupAL s.pending_requests rid = some p →
        (keysAL p.responses).Nodup →
        (∀ x ∈ keysAL p.responses, x ∈ p.replicas) →
        ((p.replicas.dedup.length : Int) < p.quorum) →
        (∀ m ∈ msgs, m.rid = rid ∧ m.sender ∈ p.replicas) →
        ∃ p2 : PendingRequest,
          lookupAL (s.runResps msgs).1.pending_requests rid = some p2 ∧
          (s.runResps msgs).2 = [] ∧
          p2.replicas = p.replicas ∧ p2.quorum = p.quorum) := by
  refine ⟨?_, ?_, ?_, ?_, ?_⟩
  · intro s key q now
    exact ⟨rfl, lookupAL_insertAL_self s.pending_requests s.request_counter _⟩
  · intro s key value q now
    exact ⟨rfl, lookupAL_insertAL_self s.pending_requests s.request_counter _⟩
  · intro s key q now
    exact ⟨rfl, lookupAL_insertAL_self s.pending_requests s.request_counter _⟩
  · intro s key v t rid replica p hp hresp0 hq1
    have hgate : p.quorum ≤
        ((insertAL ([] : List (String × Cell)) replica (v, t)).length : Int) := by
      simpa [insertAL] using hq1
    refine ⟨?_, ?_, ?_⟩
    · simp only [StorageNode.handle_replica_get_resp, hp, hresp0]
      rw [if_pos hgate]
      refine ⟨lookupAL_eraseAL_self _ _, rfl⟩
    · intro hop
      have hopn : ¬p.operation ≠ Op.PUT := fun hh => hh hop
      simp only [StorageNode.handle_replica_put_resp, hp, hresp0]
      rw [if_neg hopn, if_pos hgate]
      refine ⟨lookupAL_eraseAL_self _ _, rfl⟩
    · intro hop
      have hopn : ¬p.operation ≠ Op.DELETE := fun hh => hh hop
      simp only [StorageNode.handle_replica_delete_resp, hp, hresp0]
      rw [if_neg hopn, if_pos hgate]
      refine ⟨lookupAL_eraseAL_self _ _, rfl⟩
  · intro s rid p msgs h1 h2 h3 h4 h5
    exact runResps_stranded msgs s rid p h1 h2 h3 h4 h5

/-- A GET pending request with quorum 0 and no responses. -/
def pendingGetQ0 : PendingRequest :=
  { operation := Op.GET, key := "k", value := none, replicas := ["0", "1", "2"]
    quorum := 0, responses := [], timestamp_sent := 0, timestamp := none }

/-- A coordinator holding `pendingGetQ0` as request 9. -/
def nodeGetQ0 : StorageNode :=
  { node_id := "0", nodes := ["0", "1", "2"], node_count := 3, data := []
    pending_requests := [(9, pendingGetQ0)], request_counter := 10 }

/-- A GET pending request with quorum 4, above the 3 distinct replicas. -/
def pendingGetQ4 : PendingRequest :=
  { operation := Op.GET, key := "k", value := none, replicas := ["0", "1", "2"]
    quorum := 4, responses := [], timestamp_sent := 0, timestamp := none }

/-- A coordinator holding `pendingGetQ4` as request 9. -/
def nodeGetQ4 : StorageNode :=
  { node_id := "0", nodes := ["0", "1", "2"], node_count := 3, data := []
    pending_requests := [(9, pendingGetQ4)], request_counter := 10 }

/-- Responses from all three placement replicas for request 9. -/
def msgsAll3 : List RespMsg :=
  [RespMsg.get "k" (some "v") 3 9 "0", RespMsg.get "k" (some "v") 3 9 "1",
    RespMsg.get "k" (some "v") 3 9 "2"]

/-- C10 witnessed: a quorum-0 GET finalizes on the very first response,
while a quorum-4 GET stays pending and silent even after all three
replicas answered. -/
theorem C10_quorum_unvalidated_witness :
    (lookupAL (nodeGetQ0.handle_replica_get_resp "k" (some "v") 3 9
          "r1").state.pending_requests 9 = none ∧
      (nodeGetQ0.handle_replica_get_resp "k" (some "v") 3 9 "r1").locals =
        [LocalMsg.getResp pendingGetQ0.key (computeBest [("r1", (some "v", 3))]).1]) ∧
    (∃ p2 : PendingRequest,
      lookupAL (nodeGetQ4.runResps msgsAll3).1.pending_requests 9 = some p2 ∧
      (nodeGetQ4.runResps msgsAll3).2 = [] ∧
      p2.replicas = pendingGetQ4.replicas ∧ p2.quorum = pendingGetQ4.quorum) :=
  ⟨(C10_quorum_unvalidated.2.2.2.1 nodeGetQ0 "k" (some "v") 3 9 "r1" pendingGetQ0
      (by decide) (by decide) (by decide)).1,
    C10_quorum_unvalidated.2.2.2.2 nodeGetQ4 9 pendingGetQ4 msgsAll3
      (by decide) (by decide) (by decide) (by decide) (by decide)⟩
